import Mathlib

/-!
Verification of the manus-clone pipeline against its natural-language
specification.  Each Python function that a claim refers to is shallowly
embedded as an executable Lean definition, translated from the source in
`src/`; machine floats that only ever hold clock times or percentages are
modelled as rationals.
-/

namespace ManusClone

/-! ## String utilities modelling Python primitives -/

/-- Model of Python `needle in hay` restricted to the prefix position:
`subAt ns hs` holds when `ns` is an initial segment of `hs`. -/
def subAt : List Char → List Char → Bool
  | [], _ => true
  | _ :: _, [] => false
  | n :: ns, h :: hs => n == h && subAt ns hs

/-- Model of Python substring membership `needle in hay` on char lists. -/
def hasSub : List Char → List Char → Bool
  | ns, [] => subAt ns []
  | ns, h :: hs => subAt ns (h :: hs) || hasSub ns hs

/-- Model of the Python expression `needle in hay` for strings. -/
def pyIn (needle hay : String) : Bool :=
  hasSub needle.toList hay.toList

/-- Model of Python `any(k in hay for k in needles)`. -/
def anyIn (needles : List String) (hay : String) : Bool :=
  needles.any (fun k => pyIn k hay)

/-- Model of Python `s.split(' ')[0]`: the prefix up to the first space. -/
def firstWord (s : String) : String :=
  String.mk (s.toList.takeWhile (fun c => c != ' '))

/-- Model of Python `s.strip()` (whitespace from both ends), written over the
char list so it evaluates by kernel reduction. -/
def pyStrip (s : String) : String :=
  String.mk
    (((s.toList.dropWhile Char.isWhitespace).reverse.dropWhile
        Char.isWhitespace).reverse)

/-- Model of Python `s.startswith(pre)`. -/
def pyStarts (s pre : String) : Bool :=
  subAt pre.toList s.toList

/-! ## Intent classifier (`TaskExecutorAgent._analyze_task_type`,
`src/agents/task_executor.py` lines 82-102) -/

/-- Translation of `_analyze_task_type`: keyword lists and precedence order
copied from the source. -/
def analyze_task_type (user_input : String) : String :=
  let input_lower := user_input.toLower
  if anyIn ["linkedin", "profile", "professional profile", "resume", "cv"] input_lower then
    "linkedin_search"
  else if anyIn ["average", "avg", "salary", "salaries", "what is", "who is", "define",
      "definition", "statistics", "stats", "market size", "trend", "trends", "overview",
      "comparison", "vs", "benefits", "cons", "pros", "how much", "how many", "price",
      "cost"] input_lower then
    "web_only"
  else if anyIn ["scrape", "extract", "data from", "crawl"] input_lower then
    "data_scraping"
  else if anyIn ["search", "find", "look for"] input_lower then
    "web_search"
  else
    "web_only"

/-- Statement of claim C2 in its own words: classification by substring
membership of the fixed keyword lists, in the stated precedence order.  This
definition is written from the claim text, to be compared with
`analyze_task_type` (written from the source). -/
def taskTypeSpec (user_input : String) : String :=
  let low := user_input.toLower
  if anyIn ["linkedin", "profile", "professional profile", "resume", "cv"] low then
    "linkedin_search"
  else if anyIn ["average", "avg", "salary", "salaries", "what is", "who is", "define",
      "definition", "statistics", "stats", "market size", "trend", "trends", "overview",
      "comparison", "vs", "benefits", "cons", "pros", "how much", "how many", "price",
      "cost"] low then
    "web_only"
  else if anyIn ["scrape", "extract", "data from", "crawl"] low then
    "data_scraping"
  else if anyIn ["search", "find", "look for"] low then
    "web_search"
  else
    "web_only"

/-! ## Search-result deduplication (`TaskExecutorAgent._deduplicate_results`,
`src/agents/task_executor.py` lines 492-503) -/

/-- Model of the `SearchResult` pydantic record; the relevance score (a float
that is only stored, never computed with) is modelled as a rational. -/
structure SearchResult where
  title : String
  url : String
  snippet : String
  source : String
  relevance_score : ℚ
deriving DecidableEq, Repr

/-- Loop of `_deduplicate_results`, with the `seen_urls` set made explicit as
the list of urls already kept. -/
def dedupAux (seen : List String) : List SearchResult → List SearchResult
  | [] => []
  | r :: rs =>
    if r.url ≠ "" ∧ r.url ∉ seen then
      r :: dedupAux (r.url :: seen) rs
    else if r.url = "" then
      r :: dedupAux seen rs
    else
      dedupAux seen rs

/-- Translation of `_deduplicate_results`. -/
def deduplicate_results (results : List SearchResult) : List SearchResult :=
  dedupAux [] results

/-- Output lists of the dedup loop: non-empty urls are pairwise distinct and
avoid the `seen` accumulator. -/
def UrlsOk (seen : List String) (l : List SearchResult) : Prop :=
  l.Pairwise (fun a b => a.url = "" ∨ b.url = "" ∨ a.url ≠ b.url) ∧
    ∀ r ∈ l, r.url = "" ∨ r.url ∉ seen

/-! ## Rate limiter (`TaskExecutorAgent._rate_limit`,
`src/agents/task_executor.py` lines 47-55).  Clock times (Python floats) are
modelled as rationals, and `asyncio.sleep` is taken to sleep exactly the
requested amount, so the clock read after the sleep is the clock read before
it plus the sleep time. -/

/-- The constant `self.rate_limit_delay = 3`. -/
def rate_limit_delay : ℚ := 3

/-- Sleep performed by `_rate_limit` when the previous API call happened at
clock time `last` and the current clock reads `now`. -/
def rateLimitSleep (last now : ℚ) : ℚ :=
  if now - last < rate_limit_delay then rate_limit_delay - (now - last) else 0

/-- Clock time at which the guarded API call starts (also the value stored
into `self.last_api_call` by the final `time.time()` read). -/
def rateLimitStart (last now : ℚ) : ℚ :=
  now + rateLimitSleep last now

/-! ## Statistics summarizer (`ReportGeneratorAgent._generate_summary_statistics`
and `_analyze_experience_levels`, `src/agents/report_generator.py` lines
190-228 and 254-280).  A pandas DataFrame is modelled as a list of rows plus
presence flags for the columns the code tests with `in data.columns`; a
headline cell is `Option String`, `none` standing for a non-string cell. -/

/-- Model of an opaque dict entry (the code only ever takes lengths of the
`experience`/`education` lists, never looks inside the dicts). -/
structure JEntry where
  fields : List (String × String)
deriving DecidableEq, Repr

/-- Row of the cleaned DataFrame as consumed by the statistics code. -/
structure StatRow where
  location : String
  all_skills : List String
  experience : List JEntry
  headline : Option String
  source : String
deriving DecidableEq, Repr

/-- DataFrame model: column-presence flags plus rows. -/
structure StatDF where
  hasLocation : Bool
  hasAllSkills : Bool
  hasExperience : Bool
  hasHeadline : Bool
  hasSource : Bool
  rows : List StatRow
deriving DecidableEq, Repr

/-- Experience-level counters (`levels` dict in `_analyze_experience_levels`). -/
structure ExpLevels where
  entry : Nat
  mid : Nat
  senior : Nat
  executive : Nat
  unknown : Nat
deriving DecidableEq, Repr

/-- All-zero counters, the dict literal the code starts from. -/
def ExpLevels.zero : ExpLevels := ⟨0, 0, 0, 0, 0⟩

/-- Sum of the five counters. -/
def ExpLevels.total (e : ExpLevels) : Nat :=
  e.entry + e.mid + e.senior + e.executive + e.unknown

/-- Names of the five levels, used to phrase which single counter a headline
bumps. -/
inductive ExpLevel
  | entry
  | mid
  | senior
  | executive
  | unknown
deriving DecidableEq, Repr

/-- Branch chosen for one string headline (the if/elif chain of
`_analyze_experience_levels`, first matching branch wins). -/
def classifyHeadline (h : String) : ExpLevel :=
  let hl := h.toLower
  if anyIn ["senior", "lead", "principal"] hl then .senior
  else if anyIn ["junior", "entry", "associate"] hl then .entry
  else if anyIn ["director", "vp", "cto", "ceo"] hl then .executive
  else if anyIn ["engineer", "developer", "analyst"] hl then .mid
  else .unknown

/-- Increment the counter of one level. -/
def ExpLevels.bump (e : ExpLevels) : ExpLevel → ExpLevels
  | .entry => { e with entry := e.entry + 1 }
  | .mid => { e with mid := e.mid + 1 }
  | .senior => { e with senior := e.senior + 1 }
  | .executive => { e with executive := e.executive + 1 }
  | .unknown => { e with unknown := e.unknown + 1 }

/-- Loop body of `_analyze_experience_levels`: a string headline bumps its
level, a non-string cell contributes nothing. -/
def expStep (acc : ExpLevels) (r : StatRow) : ExpLevels :=
  match r.headline with
  | some h => acc.bump (classifyHeadline h)
  | none => acc

/-- Translation of `_analyze_experience_levels`. -/
def analyze_experience_levels (df : StatDF) : ExpLevels :=
  if df.rows.isEmpty then ExpLevels.zero
  else if df.hasHeadline then df.rows.foldl expStep ExpLevels.zero
  else ExpLevels.zero

/-- Insertion-ordered distinct values of a column (model of the index of
`pandas.Series.value_counts` before sorting, and of `nunique`). -/
def uniqKeys (xs : List String) : List String :=
  xs.foldl (fun acc x => if x ∈ acc then acc else acc ++ [x]) []

/-- Model of `value_counts().to_dict()`: occurrence counts sorted by count,
descending (stable, so ties keep first-appearance order). -/
def valueCounts (xs : List String) : List (String × Nat) :=
  ((uniqKeys xs).map (fun v => (v, xs.count v))).mergeSort
    (fun a b => decide (b.2 ≤ a.2))

/-- Result record of `_generate_summary_statistics`; the float mean is a
rational. -/
structure SummaryStats where
  total_records : Nat
  unique_locations : Nat
  records_with_skills : Nat
  records_with_experience : Nat
  avg_skills_per_record : ℚ
  top_locations : List (String × Nat)
  source_distribution : List (String × Nat)
  experience_levels : ExpLevels
deriving DecidableEq, Repr

/-- The all-zero dict returned for an empty DataFrame. -/
def emptySummaryStats : SummaryStats :=
  ⟨0, 0, 0, 0, 0, [], [], ExpLevels.zero⟩

/-- Translation of `_generate_summary_statistics`. -/
def generate_summary_statistics (df : StatDF) : SummaryStats :=
  if df.rows.isEmpty then emptySummaryStats
  else
    { total_records := df.rows.length
      unique_locations :=
        if df.hasLocation then (uniqKeys (df.rows.map (·.location))).length else 0
      records_with_skills :=
        if df.hasAllSkills then
          (df.rows.filter (fun r => r.all_skills.length > 0)).length
        else 0
      records_with_experience :=
        if df.hasExperience then
          (df.rows.filter (fun r => r.experience.length > 0)).length
        else 0
      avg_skills_per_record :=
        if df.hasAllSkills then
          ((df.rows.map (fun r => (r.all_skills.length : ℚ))).sum) /
            (df.rows.length : ℚ)
        else 0
      top_locations :=
        if df.hasLocation then (valueCounts (df.rows.map (·.location))).take 10
        else []
      source_distribution :=
        if df.hasSource then valueCounts (df.rows.map (·.source)) else []
      experience_levels := analyze_experience_levels df }

/-- Number of rows whose headline cell is a string (zero when the headline
column is absent), the quantity C4 compares the level counts against. -/
def stringHeadlineCount (df : StatDF) : Nat :=
  if df.hasHeadline then (df.rows.filter (fun r => r.headline.isSome)).length
  else 0

/-! ## Data assembler (`ManusCloneWorkflow._step_prepare_dataframe`,
`src/main.py` lines 235-320).  A scraped record arriving as a pydantic model
or a dict is modelled with `Option` fields (absent key = `none`); a `skills`
cell that is not a list is the `nonList` variant, so `to_list_safe` can be
translated faithfully. -/

/-- Value of a `skills` cell: a list of strings or something else. -/
inductive SkillsCell
  | list (l : List String)
  | nonList
deriving DecidableEq, Repr

/-- Scraped record as a dict: every key optional. -/
structure RawRecord where
  profile_url : Option String
  name : Option String
  headline : Option String
  location : Option String
  summary : Option String
  experience : Option (List JEntry)
  skills : Option SkillsCell
  education : Option (List JEntry)
  source : Option String
deriving DecidableEq, Repr

/-- Row of the minimal DataFrame built by `_step_prepare_dataframe`. -/
structure PreparedRow where
  profile_url : String
  name : String
  headline : String
  location : String
  summary : String
  experience : List JEntry
  skills : SkillsCell
  education : List JEntry
  source : String
deriving DecidableEq, Repr

/-- Translation of the local `to_list_safe`. -/
def to_list_safe : SkillsCell → List String
  | .list l => l
  | .nonList => []

/-- The per-record dict literal built in the `records` loop, with the
`row.get(key, default)` defaults from the source. -/
def convertRecord (r : RawRecord) : PreparedRow :=
  { profile_url := r.profile_url.getD ""
    name := r.name.getD "Unknown"
    headline := r.headline.getD ""
    location := r.location.getD ""
    summary := r.summary.getD ""
    experience := r.experience.getD []
    skills := r.skills.getD (.list [])
    education := r.education.getD []
    source := r.source.getD "Unknown" }

/-- The single narrative row injected when no records exist but the last
search context holds an answer. -/
def webAnswerRow (ans : String) : PreparedRow :=
  { profile_url := ""
    name := "Web Answer"
    headline := ""
    location := ""
    summary := ans
    experience := []
    skills := .list []
    education := []
    source := "Compound-Beta" }

/-- The DataFrame produced by `_step_prepare_dataframe`: rows plus the
derived `all_skills` column (`none` when the column was never added). -/
structure PreparedDF where
  rows : List PreparedRow
  all_skills : Option (List (List String))
deriving DecidableEq, Repr

/-- Translation of `_step_prepare_dataframe` (the DataFrame construction part;
`lastAnswer` is `task_executor.last_search_context['answer']`, with the empty
string for a missing/falsy answer). -/
def prepare_dataframe (scraped : List RawRecord) (lastAnswer : String) :
    PreparedDF :=
  let records := scraped.map convertRecord
  let allSkills : Option (List (List String)) :=
    if records = [] then none
    else some (records.map (fun r => to_list_safe r.skills))
  if lastAnswer ≠ "" ∧ records = [] then
    { rows := [webAnswerRow lastAnswer], all_skills := none }
  else
    { rows := records, all_skills := allSkills }

/-! ## HTTP run endpoint (`api_run`, `src/api_server.py` lines 85-104).
The in-memory `jobs` dict is an association list; the generated uuid and the
timestamp are parameters; raising `HTTPException` is the `Except.error`
branch, carrying the status code. -/

/-- Request body of `POST /api/run`. -/
structure RunRequest where
  input : String
  max_results : Int
  verbose : Bool
deriving DecidableEq, Repr

/-- Stored job state (the fields `api_run` sets on creation). -/
structure JobState where
  id : String
  status : String
  created_at : String
  updated_at : String
  input : String
  max_results : Int
  verbose : Bool
  progress : ℚ
  logs : List String
deriving DecidableEq, Repr

/-- Translation of the `api_run` handler body (up to scheduling the
background task): validation, then creation of exactly one job. -/
def api_run (req : RunRequest) (job_id now : String)
    (jobs : List (String × JobState)) :
    Except Nat (List (String × JobState) × String) :=
  if req.input = "" ∨ pyStrip req.input = "" then
    .error 400
  else
    let job : JobState :=
      { id := job_id
        status := "queued"
        created_at := now
        updated_at := now
        input := pyStrip req.input
        max_results := max req.max_results 1
        verbose := req.verbose
        progress := 0
        logs := ["Job queued", "Input: " ++ pyStrip req.input] }
    .ok (jobs ++ [(job_id, job)], job_id)

/-! ## Report generation (`ReportGeneratorAgent.generate_report` and
`_create_report`, `src/agents/report_generator.py` lines 27-54 and 379-494).
The LLM analysis result is a parameter (`ai`); the Jinja template is rendered
by a Lean function over the same template data; minor Jinja whitespace
details are not reproduced, but every template variable reference is. -/

/-- A chart dict as `_generate_location_chart` would build one. -/
structure Chart where
  title : String
  ctype : String
  data : String
deriving DecidableEq, Repr

/-- The AI-analysis dict. -/
structure AIAnalysis where
  key_insights : List String
  trends : List String
  recommendations : List String
deriving DecidableEq, Repr

/-- The search context passed from the workflow. -/
structure ReportContext where
  user_input : String
  answer : String
  search_answer : String
  sources : List String
  linkedin_profiles : List String
deriving DecidableEq, Repr

/-- The `report_format` dict. -/
structure ReportFormat where
  include_charts : Bool
  include_summary : Bool
  format : String
deriving DecidableEq, Repr

/-- A row of the LinkedIn table in the template. -/
structure LiRow where
  name : String
  headline : String
  location : String
  source : String
deriving DecidableEq, Repr

/-- A row of the web-sources table in the template. -/
structure WebRow where
  title : String
  snippet : String
  url : String
deriving DecidableEq, Repr

/-- The `report_data` dict handed to `template.render`. -/
structure ReportData where
  generated_at : String
  total_records : Nat
  ai_analysis : AIAnalysis
  summary_stats : SummaryStats
  charts : List Chart
  sample_data : List PreparedRow
  report_format : ReportFormat
  user_input : String
  sources : List String
  linkedin_profiles : List String
  direct_answer : String
  has_linkedin : Bool
  li_rows : List LiRow
  web_rows : List WebRow
deriving DecidableEq, Repr

/-- Python `a or b` on strings: the left value unless it is falsy (empty). -/
def pyOr (s d : String) : String := if s = "" then d else s

/-- Python slice `s[:n]`. -/
def pyTake (s : String) (n : Nat) : String := String.mk (s.toList.take n)

/-- The `li_rows` comprehension entry. -/
def buildLiRow (r : PreparedRow) : LiRow :=
  ⟨pyOr r.name "N/A", pyOr r.headline "N/A", pyOr r.location "N/A",
    pyOr r.source "N/A"⟩

/-- The `web_rows` comprehension entry. -/
def buildWebRow (r : PreparedRow) : WebRow :=
  ⟨pyOr r.name (pyOr r.profile_url "N/A"), pyTake r.summary 220, r.profile_url⟩

/-- Rendering of the template returned by `_get_report_template` over the
template data.  The function reads exactly the variables the template text
references; in particular it never reads `charts`. -/
def buildReport (d : ReportData) : String :=
  "Generated on: " ++ d.generated_at ++ "\n\n---\n\n# Research Report\n\n---\n\n" ++
  "## 1. Query Context & Objective\n\n- User Query: " ++ pyOr d.user_input "N/A" ++
  "\n- Interpreted Objective: Provide a concise, factual answer supported by reputable sources and profile evidence where available.\n- Timeframe: Current\n- Intended Output Type: Analysis report\n\n---\n\n## 2. Executive Summary\n\n" ++
  (if d.direct_answer ≠ "" then d.direct_answer ++ "\n"
   else if d.ai_analysis.key_insights ≠ [] then
     String.join (d.ai_analysis.key_insights.map (fun i => "- " ++ i ++ "\n"))
   else "- No executive insights available.\n") ++
  "\n---\n\n" ++
  (if d.has_linkedin then
    "## 3A. Core Data – LinkedIn Profiles\n\n| Name | Headline | Location | Source |\n|------|----------|----------|--------|\n" ++
      String.join (d.li_rows.map (fun r =>
        "| " ++ r.name ++ " | " ++ r.headline ++ " | " ++ r.location ++ " | " ++
          r.source ++ " |\n")) ++ "\n"
   else "") ++
  "## " ++ (if d.has_linkedin then "3B" else "3") ++
  ". Core Data – Web Sources\n\n| Title/URL | Snippet |\n|-----------|---------|\n" ++
  String.join (d.web_rows.map (fun w =>
    "| " ++ w.title ++ " | " ++ w.snippet ++ " |\n")) ++
  "\n---\n\n## 4. Sources\n" ++
  (if d.sources ≠ [] then
    String.join (d.sources.map (fun u => "- " ++ u ++ "\n"))
   else "- N/A\n") ++
  "\n---\nReport generated by AI Agent System\n"

/-- Translation of `_create_report`: derives the view rows and renders. -/
def create_report (rows : List PreparedRow) (ai : AIAnalysis)
    (stats : SummaryStats) (fmt : ReportFormat) (charts : List Chart)
    (ctx : ReportContext) (generated_at : String) : String :=
  let sample := rows.take 8
  let hasLi := sample.any (fun r => r.source.toLower == "linkedin")
  let li := (sample.filter (fun r => r.source.toLower == "linkedin")).map buildLiRow
  let web := (sample.filter (fun r => !(r.source.toLower == "linkedin"))).map buildWebRow
  buildReport
    { generated_at := generated_at
      total_records := rows.length
      ai_analysis := ai
      summary_stats := stats
      charts := charts
      sample_data := sample
      report_format := fmt
      user_input := ctx.user_input
      sources := ctx.sources
      linkedin_profiles := ctx.linkedin_profiles
      direct_answer := pyOr ctx.answer ctx.search_answer
      has_linkedin := hasLi
      li_rows := li
      web_rows := web }

/-- Mutable state of `ReportGeneratorAgent` relevant to chart handling. -/
structure RGState where
  generated_charts : List Chart
deriving DecidableEq, Repr

/-- View of a prepared DataFrame as the statistics DataFrame (same rows; the
minimal frame always has the nine base columns, and `all_skills` exactly when
that column was added). -/
def statDFofRows (pdf : PreparedDF) : StatDF :=
  ⟨true, pdf.all_skills.isSome, true, true, true,
    pdf.rows.map (fun r =>
      ⟨r.location, to_list_safe r.skills, r.experience, some r.headline,
        r.source⟩)⟩

/-- Translation of `generate_report`: `generated_charts` is forced to `[]`
before anything is rendered, then AI analysis (the `ai` parameter, since it
comes from an LLM call), then summary statistics, then the template render.
Returns the post-call agent state and the report string. -/
def generate_report (st : RGState) (pdf : PreparedDF) (fmt : ReportFormat)
    (ctx : ReportContext) (ai : AIAnalysis) (generated_at : String) :
    RGState × String :=
  let st1 : RGState := { st with generated_charts := [] }
  let stats := generate_summary_statistics (statDFofRows pdf)
  (st1, create_report pdf.rows ai stats fmt st1.generated_charts ctx generated_at)

/-! ## Free-text search-response parsing
(`TaskExecutorAgent._parse_structured_search_response`,
`src/agents/task_executor.py` lines 360-399).  All string operations are
re-implemented over char lists (`pyStrip`, `pyStarts`, `pyLower`,
`splitOnNL`) so they evaluate by kernel reduction; `splitlines` is modelled
as splitting on `'\n'` — each line is immediately stripped, so `'\r'`
line-ends wash out (the only divergence is a trailing empty line for content
ending in a newline, which every branch of the state machine ignores). -/

/-- Model of Python `s.lower()` (ASCII case folding, which covers every
keyword and header the code compares against). -/
def pyLower (s : String) : String :=
  String.mk (s.toList.map Char.toLower)

/-- Split a char list at newline characters (model of `splitlines` for
`'\n'`-separated text). -/
def splitOnNL : List Char → List (List Char)
  | [] => [[]]
  | c :: rest =>
    let r := splitOnNL rest
    if c = '\n' then [] :: r
    else
      match r with
      | h :: t => (c :: h) :: t
      | [] => [[c]]

/-- The stripped lines of the response. -/
def responseLines (content : String) : List String :=
  (splitOnNL content.toList).map (fun cs => pyStrip (String.mk cs))

/-- Which section header was seen last (`cur` in the loop). -/
inductive Sect
  | none
  | answer
  | sources
  | linkedin
deriving DecidableEq, Repr

/-- Loop state of `_parse_structured_search_response`. -/
structure PState where
  cur : Sect
  buffer : List String
  answer : String
  sources : List String
  linkedin_profiles : List String
deriving DecidableEq, Repr

/-- Python `'\n'.join(buffer).strip()`. -/
def joinBuf (b : List String) : String :=
  pyStrip (String.intercalate "\n" b)

/-- Python `ln.startswith('-') or ln.startswith('•')`. -/
def bulletish (ln : String) : Bool :=
  pyStarts ln "-" || pyStarts ln "•"

/-- The url cleanup on a bullet line:
`ln[1:].strip().lstrip('*•- ').strip()`. -/
def stripBullet (ln : String) : String :=
  pyStrip (String.mk
    ((pyStrip (String.mk (ln.toList.drop 1))).toList.dropWhile
      (fun c => c == '*' || c == '•' || c == '-' || c == ' ')))

/-- The `if cur == 'answer': sections['answer'] = '\n'.join(buffer).strip()`
flush performed on every header line. -/
def flushAnswer (st : PState) : String :=
  if st.cur = Sect.answer then joinBuf st.buffer else st.answer

/-- One iteration of the line loop of `_parse_structured_search_response`. -/
def processLine (st : PState) (ln : String) : PState :=
  let low := pyLower ln
  if pyStarts low "answer:" then
    { cur := Sect.answer
      buffer := [pyStrip (String.mk (ln.toList.drop 7))]
      answer := flushAnswer st
      sources := st.sources
      linkedin_profiles := st.linkedin_profiles }
  else if pyStarts low "sources:" then
    { cur := Sect.sources
      buffer := []
      answer := flushAnswer st
      sources := st.sources
      linkedin_profiles := st.linkedin_profiles }
  else if pyStarts low "linkedin profiles" then
    { cur := Sect.linkedin
      buffer := []
      answer := flushAnswer st
      sources := st.sources
      linkedin_profiles := st.linkedin_profiles }
  else if st.cur = Sect.answer then
    { st with buffer := st.buffer ++ [ln] }
  else if (st.cur = Sect.sources ∨ st.cur = Sect.linkedin) ∧ bulletish ln then
    if st.cur = Sect.sources then
      { st with sources := st.sources ++ [stripBullet ln] }
    else
      { st with linkedin_profiles := st.linkedin_profiles ++ [stripBullet ln] }
  else st

/-- The final cleanup: keep bullets that start with `'http'`, truncated at
the first space (`u.split(' ')[0]`). -/
def cleanUrls (us : List String) : List String :=
  (us.filter (fun u => pyStarts u "http")).map firstWord

/-- Result dict of `_parse_structured_search_response`. -/
structure SearchSections where
  answer : String
  sources : List String
  linkedin_profiles : List String
deriving DecidableEq, Repr

/-- Translation of `_parse_structured_search_response`. -/
def parse_structured_search_response (content : String) : SearchSections :=
  let lines := responseLines content
  let st := lines.foldl processLine ⟨Sect.none, [], "", [], []⟩
  let ans :=
    if st.cur = Sect.answer ∧ st.answer = "" then joinBuf st.buffer
    else st.answer
  { answer := ans
    sources := cleanUrls st.sources
    linkedin_profiles := cleanUrls st.linkedin_profiles }

/-! ## RESULTS_JSON extraction (`TaskExecutorAgent._extract_results_json`,
`src/agents/task_executor.py` lines 401-422).  The two `re.search` calls are
modelled by direct scans implementing leftmost-match/non-greedy semantics of
those two concrete patterns, and `json.loads` by a fuel-bounded strict JSON
reader over char lists (fuel `2·|input| + 2` dominates every call chain the
grammar can produce on the input). -/

/-- Characters matched by the regex class `\s` (ASCII). -/
def isRegexSpace (c : Char) : Bool :=
  c == ' ' || c == '\t' || c == '\n' || c == '\r' || c == '\x0b' || c == '\x0c'

/-- Case-insensitive literal match of `pat` at the head of `l`. -/
def ciStartsAt : List Char → List Char → Bool
  | [], _ => true
  | _ :: _, [] => false
  | p :: ps, c :: cs => p.toLower == c.toLower && ciStartsAt ps cs

/-- Does the list end, after trailing `\s*`, with `'}'`?  This decides
whether `[\s\S]*?\}\s*$` can close the pattern-1 match. -/
def closeBraceOK (l : List Char) : Bool :=
  match l.reverse.dropWhile isRegexSpace with
  | '}' :: _ => true
  | _ => false

/-- Scan for the first match of
`RESULTS_JSON\s*\n\s*\{[\s\S]*?\}\s*$` (IGNORECASE); returns the suffix
starting at the `'{'` (which is precisely `block[block.find('{'):]` for the
match), whose end coincides with the end of the content because the final
`\s*` greedily reaches `$`. -/
def scanP1 : List Char → Option (List Char)
  | [] => Option.none
  | c :: rest =>
    if ciStartsAt "RESULTS_JSON".toList (c :: rest) then
      let after := (c :: rest).drop 12
      let ws := after.takeWhile isRegexSpace
      let rest2 := after.drop ws.length
      if ws.contains '\n' && rest2.head? == some '{' && closeBraceOK rest2 then
        some rest2
      else scanP1 rest
    else scanP1 rest

/-- Leftmost-shortest completion of `[\s\S]*?\]\s*\}`: length of the
consumed text up to and including the closing `'}'`. -/
def closeScanLen : List Char → Option Nat
  | [] => Option.none
  | c :: rest =>
    if c = ']' then
      let ws := rest.takeWhile isRegexSpace
      if (rest.drop ws.length).head? == some '}' then some (1 + ws.length + 1)
      else (closeScanLen rest).map (· + 1)
    else (closeScanLen rest).map (· + 1)

/-- Match attempt of `\{\s*\"results\"\s*:\s*\[.[\s\S]*?\]\s*\}`
(IGNORECASE) anchored at the head of `l`; returns the match length.  The
regex `.` does not match a newline. -/
def tryP2At (l : List Char) : Option Nat :=
  match l with
  | '{' :: r1 =>
    let ws1 := r1.takeWhile isRegexSpace
    let r2 := r1.drop ws1.length
    if ciStartsAt "\"results\"".toList r2 then
      let r3 := r2.drop 9
      let ws2 := r3.takeWhile isRegexSpace
      match r3.drop ws2.length with
      | ':' :: r4 =>
        let ws3 := r4.takeWhile isRegexSpace
        match r4.drop ws3.length with
        | '[' :: r5 =>
          match r5 with
          | d :: r6 =>
            if d ≠ '\n' then
              (closeScanLen r6).map (fun n =>
                1 + ws1.length + 9 + ws2.length + 1 + ws3.length + 1 + 1 + n)
            else Option.none
          | [] => Option.none
        | _ => Option.none
      | _ => Option.none
    else Option.none
  | _ => Option.none

/-- Leftmost match of pattern 2; returns the matched text (the whole
`group(0)`, which starts at its `'{'`). -/
def scanP2 : List Char → Option (List Char)
  | [] => Option.none
  | c :: rest =>
    match tryP2At (c :: rest) with
    | some n => some ((c :: rest).take n)
    | Option.none => scanP2 rest

/-- JSON values as `json.loads` would build them; numeric tokens keep their
text (the code never reads the numbers). -/
inductive JVal where
  | null : JVal
  | jbool : Bool → JVal
  | jnum : String → JVal
  | jstr : String → JVal
  | jarr : List JVal → JVal
  | jobj : List (String × JVal) → JVal

/-- JSON whitespace (`json.decoder` skips exactly these). -/
def isJsonWS (c : Char) : Bool :=
  c == ' ' || c == '\t' || c == '\n' || c == '\r'

/-- Hex digit value. -/
def parseHex (c : Char) : Option Nat :=
  if '0' ≤ c ∧ c ≤ '9' then some (c.toNat - 48)
  else if 'a' ≤ c ∧ c ≤ 'f' then some (c.toNat - 87)
  else if 'A' ≤ c ∧ c ≤ 'F' then some (c.toNat - 55)
  else Option.none

/-- String body reader (after the opening quote); strict mode: raw control
characters are rejected, escapes per the JSON grammar. -/
def parseJString : Nat → List Char → Option (String × List Char)
  | 0, _ => Option.none
  | _ + 1, [] => Option.none
  | fuel + 1, c :: rest =>
    if c = '"' then some ("", rest)
    else if c = '\\' then
      match rest with
      | [] => Option.none
      | e :: r2 =>
        let esc : Option (Char × List Char) :=
          if e = '"' then some ('"', r2)
          else if e = '\\' then some ('\\', r2)
          else if e = '/' then some ('/', r2)
          else if e = 'b' then some ('\x08', r2)
          else if e = 'f' then some ('\x0c', r2)
          else if e = 'n' then some ('\n', r2)
          else if e = 'r' then some ('\r', r2)
          else if e = 't' then some ('\t', r2)
          else if e = 'u' then
            match r2 with
            | h1 :: h2 :: h3 :: h4 :: r3 =>
              match parseHex h1, parseHex h2, parseHex h3, parseHex h4 with
              | some a, some b, some c2, some d =>
                some (Char.ofNat (((a * 16 + b) * 16 + c2) * 16 + d), r3)
              | _, _, _, _ => Option.none
            | _ => Option.none
          else Option.none
        match esc with
        | some (ch, r3) =>
          (parseJString fuel r3).map (fun p => (String.mk (ch :: p.1.toList), p.2))
        | Option.none => Option.none
    else if c.toNat < 32 then Option.none
    else (parseJString fuel rest).map (fun p => (String.mk (c :: p.1.toList), p.2))

/-- Unsigned integer token `0|[1-9]\d*`. -/
def parseUIntTok : List Char → Option (List Char × List Char)
  | '0' :: rest => some (['0'], rest)
  | c :: rest =>
    if c.isDigit then
      some (c :: rest.takeWhile Char.isDigit, rest.dropWhile Char.isDigit)
    else Option.none
  | [] => Option.none

/-- Optional fraction `(\.\d+)?`. -/
def parseFrac : List Char → (List Char × List Char)
  | '.' :: c :: rest =>
    if c.isDigit then
      ('.' :: c :: rest.takeWhile Char.isDigit, rest.dropWhile Char.isDigit)
    else ([], '.' :: c :: rest)
  | l => ([], l)

/-- Optional exponent `([eE][-+]?\d+)?`. -/
def parseExpPart : List Char → (List Char × List Char)
  | e :: rest =>
    if e = 'e' ∨ e = 'E' then
      match rest with
      | s :: r2 =>
        if s = '+' ∨ s = '-' then
          match r2 with
          | c :: r3 =>
            if c.isDigit then
              (e :: s :: c :: r3.takeWhile Char.isDigit,
                r3.dropWhile Char.isDigit)
            else ([], e :: rest)
          | [] => ([], e :: rest)
        else if s.isDigit then
          (e :: s :: r2.takeWhile Char.isDigit, r2.dropWhile Char.isDigit)
        else ([], e :: rest)
      | [] => ([], [e])
    else ([], e :: rest)
  | [] => ([], [])

/-- Number token per the `json` module's NUMBER_RE. -/
def parseNumTok (l : List Char) : Option (String × List Char) :=
  let sign : List Char × List Char :=
    match l with
    | '-' :: r => (['-'], r)
    | _ => ([], l)
  match parseUIntTok sign.2 with
  | Option.none => Option.none
  | some (ip, l2) =>
    let fr := parseFrac l2
    let ex := parseExpPart fr.2
    some (String.mk (sign.1 ++ ip ++ fr.1 ++ ex.1), ex.2)

mutual

/-- Value reader of the strict JSON grammar (`json.loads`), fuel-bounded. -/
def parseVal : Nat → List Char → Option (JVal × List Char)
  | 0, _ => Option.none
  | fuel + 1, l =>
    match l.dropWhile isJsonWS with
    | [] => Option.none
    | c :: rest =>
      if c = '"' then
        (parseJString fuel rest).map (fun p => (JVal.jstr p.1, p.2))
      else if c = '{' then parseObjBody fuel rest
      else if c = '[' then parseArrBody fuel rest
      else if c = 't' then
        match rest with
        | 'r' :: 'u' :: 'e' :: r => some (JVal.jbool true, r)
        | _ => Option.none
      else if c = 'f' then
        match rest with
        | 'a' :: 'l' :: 's' :: 'e' :: r => some (JVal.jbool false, r)
        | _ => Option.none
      else if c = 'n' then
        match rest with
        | 'u' :: 'l' :: 'l' :: r => some (JVal.null, r)
        | _ => Option.none
      else if c = 'N' then
        match rest with
        | 'a' :: 'N' :: r => some (JVal.jnum "NaN", r)
        | _ => Option.none
      else if c = 'I' then
        match rest with
        | 'n' :: 'f' :: 'i' :: 'n' :: 'i' :: 't' :: 'y' :: r =>
          some (JVal.jnum "Infinity", r)
        | _ => Option.none
      else if c = '-' then
        match rest with
        | 'I' :: 'n' :: 'f' :: 'i' :: 'n' :: 'i' :: 't' :: 'y' :: r =>
          some (JVal.jnum "-Infinity", r)
        | _ => (parseNumTok (c :: rest)).map (fun p => (JVal.jnum p.1, p.2))
      else
        (parseNumTok (c :: rest)).map (fun p => (JVal.jnum p.1, p.2))

/-- Object body after `'{'`. -/
def parseObjBody : Nat → List Char → Option (JVal × List Char)
  | 0, _ => Option.none
  | fuel + 1, l =>
    match l.dropWhile isJsonWS with
    | '}' :: r => some (JVal.jobj [], r)
    | '"' :: r =>
      match parseJString fuel r with
      | Option.none => Option.none
      | some (k, r2) =>
        match r2.dropWhile isJsonWS with
        | ':' :: r3 =>
          match parseVal fuel r3 with
          | Option.none => Option.none
          | some (v, r4) => parseObjRest fuel [(k, v)] r4
        | _ => Option.none
    | _ => Option.none

/-- Further `, "key": value` object members, then `'}'`. -/
def parseObjRest : Nat → List (String × JVal) → List Char →
    Option (JVal × List Char)
  | 0, _, _ => Option.none
  | fuel + 1, acc, l =>
    match l.dropWhile isJsonWS with
    | '}' :: r => some (JVal.jobj acc, r)
    | ',' :: r =>
      match r.dropWhile isJsonWS with
      | '"' :: r2 =>
        match parseJString fuel r2 with
        | Option.none => Option.none
        | some (k, r3) =>
          match r3.dropWhile isJsonWS with
          | ':' :: r4 =>
            match parseVal fuel r4 with
            | Option.none => Option.none
            | some (v, r5) => parseObjRest fuel (acc ++ [(k, v)]) r5
          | _ => Option.none
      | _ => Option.none
    | _ => Option.none

/-- Array body after `'['`. -/
def parseArrBody : Nat → List Char → Option (JVal × List Char)
  | 0, _ => Option.none
  | fuel + 1, l =>
    match l.dropWhile isJsonWS with
    | ']' :: r => some (JVal.jarr [], r)
    | _ =>
      match parseVal fuel l with
      | Option.none => Option.none
      | some (v, r) => parseArrRest fuel [v] r

/-- Further `, value` array elements, then `']'`. -/
def parseArrRest : Nat → List JVal → List Char → Option (JVal × List Char)
  | 0, _, _ => Option.none
  | fuel + 1, acc, l =>
    match l.dropWhile isJsonWS with
    | ']' :: r => some (JVal.jarr acc, r)
    | ',' :: r =>
      match parseVal fuel r with
      | Option.none => Option.none
      | some (v, r2) => parseArrRest fuel (acc ++ [v]) r2
    | _ => Option.none

end

/-- Model of `json.loads`: one value, then only whitespace may remain. -/
def loads (fuel : Nat) (s : String) : Option JVal :=
  match parseVal fuel s.toList with
  | some (v, rest) =>
    if rest.dropWhile isJsonWS = [] then some v else Option.none
  | Option.none => Option.none

/-- Python dict lookup after `json.loads`: later duplicate keys win. -/
def jGet (kvs : List (String × JVal)) (k : String) : Option JVal :=
  kvs.foldl (fun acc p => if p.1 = k then some p.2 else acc) Option.none

/-- The `results` list of a matched block when it parses as a dict holding a
list under `'results'`, and `[]` otherwise (the `json.JSONDecodeError` /
shape-check fallbacks). -/
def resultsOfBlock (block : List Char) : List JVal :=
  match loads (2 * block.length + 2) (String.mk block) with
  | some (JVal.jobj kvs) =>
    match jGet kvs "results" with
    | some (JVal.jarr xs) => xs
    | _ => []
  | _ => []

/-- Translation of `_extract_results_json`: pattern 1 first, then the more
permissive pattern 2, else the empty list. -/
def extract_results_json (content : String) : List JVal :=
  match scanP1 content.toList with
  | some block => resultsOfBlock block
  | Option.none =>
    match scanP2 content.toList with
    | some block => resultsOfBlock block
    | Option.none => []

/-! ## Task tracker (`TaskUpdaterAgent`, `src/agents/task_updater.py`).
The `tasks` dict is an association list keyed by task id (Python dict
assignment to an existing key keeps the key's position); float percentages
are rationals.  `details`, timestamps and logging are not tracked — no claim
touches them. -/

/-- The `TaskStatus` enum. -/
inductive TaskStatus
  | pending
  | in_progress
  | completed
  | failed
  | cancelled
deriving DecidableEq, Repr

/-- The `TaskType` enum. -/
inductive TaskType
  | web_search
  | linkedin_scraping
  | other_scraping
  | data_cleaning
  | report_generation
deriving DecidableEq, Repr

/-- The `TaskProgress` record (tracked fields). -/
structure TaskProgress where
  task_id : String
  task_type : TaskType
  status : TaskStatus
  progress_percentage : ℚ
  error_message : Option String
deriving DecidableEq, Repr

/-- Agent state: the `tasks` dict and `overall_progress`. -/
structure UpdaterState where
  tasks : List (String × TaskProgress)
  overall_progress : ℚ
deriving DecidableEq, Repr

/-- Dict lookup `self.tasks.get(task_id)`. -/
def lookupTask : List (String × TaskProgress) → String → Option TaskProgress
  | [], _ => none
  | (k, v) :: rest, id => if k = id then some v else lookupTask rest id

/-- Dict assignment `self.tasks[task_id] = t` (replaces in place, else
appends). -/
def setTask : List (String × TaskProgress) → String → TaskProgress →
    List (String × TaskProgress)
  | [], id, t => [(id, t)]
  | (k, v) :: rest, id, t =>
    if k = id then (k, t) :: rest else (k, v) :: setTask rest id t

/-- The `task_weights` dict with its `.get(type, 0.1)` default. -/
def taskWeight : TaskType → ℚ
  | .linkedin_scraping => 6/10
  | .other_scraping => 2/10
  | .data_cleaning => 1/10
  | .report_generation => 1/10
  | .web_search => 1/10

/-- One task's contribution to `weighted_progress` in
`_update_overall_progress`. -/
def contribution (t : TaskProgress) : ℚ :=
  let w := taskWeight t.task_type
  match t.status with
  | .completed => w * 100
  | .in_progress => w * t.progress_percentage
  | .failed => w * min t.progress_percentage 50
  | _ => 0

/-- The `total_weight` accumulator. -/
def weightSum (l : List (String × TaskProgress)) : ℚ :=
  (l.map (fun p => taskWeight p.2.task_type)).sum

/-- The `weighted_progress` accumulator. -/
def contribSum (l : List (String × TaskProgress)) : ℚ :=
  (l.map (fun p => contribution p.2)).sum

/-- Translation of `_update_overall_progress` as a function of the tasks. -/
def update_overall_progress (l : List (String × TaskProgress)) : ℚ :=
  if l = [] then 0
  else if 0 < weightSum l then contribSum l / weightSum l else 0

/-- The task record rewrite performed by `update_task_status` on the found
task: set the status, clamp and store a supplied progress, store a truthy
error message. -/
def applyUpdate (t : TaskProgress) (status : TaskStatus) (p : Option ℚ)
    (err : Option String) : TaskProgress :=
  let t1 := { t with status := status }
  let t2 := match p with
    | some q => { t1 with progress_percentage := min (max q 0) 100 }
    | none => t1
  match err with
  | some m => if m ≠ "" then { t2 with error_message := some m } else t2
  | none => t2

/-- Translation of `update_task_status`: unknown ids are ignored, otherwise
the task is rewritten and the overall progress recomputed. -/
def update_task_status (s : UpdaterState) (task_id : String)
    (status : TaskStatus) (p : Option ℚ) (err : Option String) :
    UpdaterState :=
  match lookupTask s.tasks task_id with
  | none => s
  | some t =>
    let tasks := setTask s.tasks task_id (applyUpdate t status p err)
    { tasks := tasks, overall_progress := update_overall_progress tasks }

/-- Translation of `log_error` (its tracking effect: mark the task failed
with the error message; progress not supplied). -/
def log_error (s : UpdaterState) (task_id : String) (msg : String) :
    UpdaterState :=
  update_task_status s task_id .failed none (some msg)

/-- The public operations a caller can run against the agent. -/
inductive TaskOp
  | create (task_id : String) (t : TaskType)
  | update (task_id : String) (status : TaskStatus) (p : Option ℚ)
      (err : Option String)
  | logErr (task_id : String) (msg : String)
  | reset

/-- Effect of one operation (`create_task` stores a pending task at progress
0 and does not recompute the overall progress; `reset_workflow` clears
everything). -/
def applyOp (s : UpdaterState) : TaskOp → UpdaterState
  | .create id t =>
    { s with tasks := setTask s.tasks id ⟨id, t, .pending, 0, none⟩ }
  | .update id st p e => update_task_status s id st p e
  | .logErr id m => log_error s id m
  | .reset => ⟨[], 0⟩

/-- Fresh agent (`__init__`). -/
def initialUpdaterState : UpdaterState := ⟨[], 0⟩

/-- Run a sequence of operations from a fresh agent. -/
def runOps (ops : List TaskOp) : UpdaterState :=
  ops.foldl applyOp initialUpdaterState

/-- Every tracked progress percentage lies in [0, 100]. -/
def BoundedTasks (l : List (String × TaskProgress)) : Prop :=
  ∀ p ∈ l, 0 ≤ p.2.progress_percentage ∧ p.2.progress_percentage ≤ 100

/-- The reachable-state invariant of the tracker. -/
def UpdaterInv (s : UpdaterState) : Prop :=
  BoundedTasks s.tasks ∧ 0 ≤ s.overall_progress ∧ s.overall_progress ≤ 100 ∧
    (s.tasks = [] → s.overall_progress = 0)

/-! ## Pipeline call order (C1).  The spec-level components are traced along
the straight-line `linkedin_search` run of `execute_workflow`
(`src/main.py` lines 167-187): task execution
(`_analyze_task_type` → `_generate_search_queries` → `_perform_web_search` →
`_scrape_linkedin_profiles`, then the raw-data JSON write at `main.py:213`),
dataframe assembly (with the CSV write at `main.py:302`), then
`generate_report` (`report_generator.py` lines 39-42: AI analysis, then
summary statistics, then template render) and the report write at
`main.py:369`. -/

/-- The nine components named by the spec. -/
inductive Component
  | intentClassifier
  | queryGenerator
  | webSearchExecutor
  | linkedinScraper
  | dataAssembler
  | statisticsSummarizer
  | aiAnalysisWriter
  | templateRenderer
  | filePersistence
deriving DecidableEq, Repr

/-- Call order inside `generate_report` (`report_generator.py` lines 39-47):
`_generate_ai_analysis` is invoked before `_generate_summary_statistics`,
then `_create_report` renders the template. -/
def generateReportTrace : List Component :=
  [.aiAnalysisWriter, .statisticsSummarizer, .templateRenderer]

/-- Component order of one `execute_workflow` run on the `linkedin_search`
path (first search pass finds profiles, data non-empty). -/
def executeWorkflowTrace : List Component :=
  [.intentClassifier, .queryGenerator, .webSearchExecutor, .linkedinScraper,
    .filePersistence, .dataAssembler, .filePersistence] ++
  generateReportTrace ++ [.filePersistence]

/-! ## Theorems -/

/-- C2: `_analyze_task_type` is pure keyword matching over the fixed keyword
lists, checked in exactly the stated precedence order: the source translation
agrees with the classifier restated from the claim on every input string. -/
theorem C2_analyze_task_type (user_input : String) :
    analyze_task_type user_input = taskTypeSpec user_input := rfl

/-- C3: `_rate_limit` sleeps exactly the deficit when less than
`rate_limit_delay` has elapsed since `last_api_call`, does not sleep
otherwise, and stores the post-sleep clock; hence two consecutive guarded
calls start at least `rate_limit_delay` apart. -/
theorem C3_rate_limit (last now₁ now₂ : ℚ)
    (_h : rateLimitStart last now₁ ≤ now₂) :
    (now₁ - last < rate_limit_delay →
      rateLimitSleep last now₁ = rate_limit_delay - (now₁ - last)) ∧
    (rate_limit_delay ≤ now₁ - last → rateLimitSleep last now₁ = 0) ∧
    rate_limit_delay ≤
      rateLimitStart (rateLimitStart last now₁) now₂ -
        rateLimitStart last now₁ := by
  refine ⟨fun hlt => ?_, fun hge => ?_, ?_⟩
  · simp only [rateLimitSleep, if_pos hlt]
  · simp only [rateLimitSleep, if_neg (not_lt.mpr hge)]
  · set t₁ := rateLimitStart last now₁ with ht
    by_cases hc : now₂ - t₁ < rate_limit_delay
    · simp only [rateLimitStart, rateLimitSleep, if_pos hc]
      linarith
    · simp only [rateLimitStart, rateLimitSleep, if_neg hc]
      push_neg at hc
      linarith

/-- Witness for C3 at concrete clock values. -/
theorem C3_rate_limit_witness :
    rateLimitSleep 0 1 = rate_limit_delay - (1 - 0) ∧
    rateLimitSleep 0 7 = 0 ∧
    rate_limit_delay ≤ rateLimitStart (rateLimitStart 0 1) 5 - rateLimitStart 0 1 :=
  ⟨(C3_rate_limit 0 1 5 (by norm_num [rateLimitStart, rateLimitSleep,
      rate_limit_delay])).1 (by norm_num [rate_limit_delay]),
   (C3_rate_limit 0 7 8 (by norm_num [rateLimitStart, rateLimitSleep,
      rate_limit_delay])).2.1 (by norm_num [rate_limit_delay]),
   (C3_rate_limit 0 1 5 (by norm_num [rateLimitStart, rateLimitSleep,
      rate_limit_delay])).2.2⟩

theorem bump_total (e : ExpLevels) (l : ExpLevel) :
    (e.bump l).total = e.total + 1 := by
  cases l <;> simp [ExpLevels.bump, ExpLevels.total] <;> omega

theorem foldl_expStep_total (rows : List StatRow) (e : ExpLevels) :
    (rows.foldl expStep e).total =
      e.total + (rows.filter (fun r => r.headline.isSome)).length := by
  induction rows generalizing e with
  | nil => simp
  | cons r rs ih =>
    cases hr : r.headline with
    | none =>
      simp only [List.foldl_cons, expStep, hr]
      rw [ih]
      simp [List.filter_cons, hr]
    | some h =>
      simp only [List.foldl_cons, expStep, hr]
      rw [ih, bump_total]
      simp [List.filter_cons, hr]
      omega

/-- C4: `_generate_summary_statistics` reports `total_records` equal to the
number of rows, returns the all-zero record for an empty DataFrame, and the
five experience-level counts of `_analyze_experience_levels` sum to the number
of rows whose headline is a string (each string headline lands in exactly one
level since the counters are bumped by a single-valued classification). -/
theorem C4_summary_statistics (df : StatDF) :
    (generate_summary_statistics df).total_records = df.rows.length ∧
    (df.rows = [] → generate_summary_statistics df = emptySummaryStats) ∧
    (analyze_experience_levels df).total = stringHeadlineCount df := by
  refine ⟨?_, fun h => ?_, ?_⟩
  · by_cases hemp : df.rows.isEmpty
    · rw [List.isEmpty_iff] at hemp
      simp [generate_summary_statistics, hemp, emptySummaryStats]
    · simp [generate_summary_statistics, hemp]
  · simp [generate_summary_statistics, h]
  · by_cases hemp : df.rows.isEmpty
    · rw [List.isEmpty_iff] at hemp
      simp [analyze_experience_levels, stringHeadlineCount, hemp,
        ExpLevels.zero, ExpLevels.total]
    · by_cases hh : df.hasHeadline
      · simp only [analyze_experience_levels, stringHeadlineCount, hemp, hh,
          if_false, if_true, Bool.false_eq_true]
        rw [foldl_expStep_total]
        simp [ExpLevels.zero, ExpLevels.total]
      · simp only [analyze_experience_levels, stringHeadlineCount] at *
        simp [hemp, hh, ExpLevels.zero, ExpLevels.total]

/-- Witness for C4 at the empty DataFrame. -/
theorem C4_summary_statistics_witness :
    generate_summary_statistics ⟨true, true, true, true, true, []⟩ =
      emptySummaryStats :=
  (C4_summary_statistics ⟨true, true, true, true, true, []⟩).2.1 rfl

theorem dedupAux_sublist (seen : List String) (l : List SearchResult) :
    (dedupAux seen l).Sublist l := by
  induction l generalizing seen with
  | nil => simp [dedupAux]
  | cons r rs ih =>
    simp only [dedupAux]
    split_ifs with h1 h2
    · exact (ih _).cons₂ r
    · exact (ih _).cons₂ r
    · exact (ih _).cons r

theorem dedupAux_filter (seen : List String) (l : List SearchResult) (u : String)
    (hu : u ≠ "") :
    (dedupAux seen l).filter (fun r => r.url == u) =
      if u ∈ seen then [] else (l.filter (fun r => r.url == u)).take 1 := by
  induction l generalizing seen with
  | nil => simp [dedupAux]
  | cons r rs ih =>
    simp only [dedupAux]
    by_cases hA : r.url ≠ "" ∧ r.url ∉ seen
    · rw [if_pos hA]
      by_cases hru : r.url = u
      · subst hru
        have htail := ih (r.url :: seen)
        rw [if_pos (List.mem_cons_self _ _)] at htail
        rw [if_neg hA.2]
        simp [List.filter_cons, htail]
      · have htail := ih (r.url :: seen)
        by_cases hs : u ∈ seen
        · rw [if_pos (List.mem_cons_of_mem _ hs)] at htail
          rw [if_pos hs]
          simp [List.filter_cons, hru, htail]
        · have hnm : u ∉ r.url :: seen := by
            intro hmem
            rcases List.mem_cons.mp hmem with heq | hmem2
            · exact hru heq.symm
            · exact hs hmem2
          rw [if_neg hnm] at htail
          rw [if_neg hs]
          simp [List.filter_cons, hru, htail]
    · rw [if_neg hA]
      push_neg at hA
      by_cases hB : r.url = ""
      · rw [if_pos hB]
        have hru : r.url ≠ u := by rw [hB]; exact Ne.symm hu
        have htail := ih seen
        by_cases hs : u ∈ seen
        · rw [if_pos hs] at htail
          rw [if_pos hs]
          simp [List.filter_cons, hru, htail]
        · rw [if_neg hs] at htail
          rw [if_neg hs]
          simp [List.filter_cons, hru, htail]
      · rw [if_neg hB]
        have hrs : r.url ∈ seen := hA hB
        have htail := ih seen
        by_cases hru : r.url = u
        · have hs : u ∈ seen := hru ▸ hrs
          rw [if_pos hs] at htail
          rw [htail, if_pos hs]
        · by_cases hs : u ∈ seen
          · rw [if_pos hs] at htail
            rw [htail, if_pos hs]
          · rw [if_neg hs] at htail
            rw [htail, if_neg hs]
            simp [List.filter_cons, hru]

theorem dedupAux_filter_empty (seen : List String) (l : List SearchResult) :
    (dedupAux seen l).filter (fun r => r.url == "") =
      l.filter (fun r => r.url == "") := by
  induction l generalizing seen with
  | nil => simp [dedupAux]
  | cons r rs ih =>
    simp only [dedupAux]
    split_ifs with h1 h2
    · simp [List.filter_cons, h1.1, ih]
    · simp [List.filter_cons, h2, ih]
    · push_neg at h1
      have hne : r.url ≠ "" := by simpa using h2
      simp [List.filter_cons, hne, ih]

theorem dedupAux_urlsOk (seen : List String) (l : List SearchResult) :
    UrlsOk seen (dedupAux seen l) := by
  induction l generalizing seen with
  | nil => exact ⟨List.Pairwise.nil, by simp [dedupAux]⟩
  | cons r rs ih =>
    simp only [dedupAux]
    split_ifs with h1 h2
    · obtain ⟨hp, hm⟩ := ih (r.url :: seen)
      refine ⟨List.Pairwise.cons ?_ hp, ?_⟩
      · intro t ht
        rcases hm t ht with h | h
        · exact Or.inr (Or.inl h)
        · exact Or.inr (Or.inr fun eq => h (by simp [← eq]))
      · intro t ht
        rcases List.mem_cons.mp ht with rfl | ht
        · exact Or.inr h1.2
        · rcases hm t ht with h | h
          · exact Or.inl h
          · exact Or.inr fun hs => h (List.mem_cons_of_mem _ hs)
    · obtain ⟨hp, hm⟩ := ih seen
      refine ⟨List.Pairwise.cons (fun t _ => Or.inl h2) hp, ?_⟩
      intro t ht
      rcases List.mem_cons.mp ht with rfl | ht
      · exact Or.inl h2
      · exact hm t ht
    · exact ih seen

theorem dedupAux_of_urlsOk (seen : List String) (l : List SearchResult)
    (h : UrlsOk seen l) : dedupAux seen l = l := by
  induction l generalizing seen with
  | nil => simp [dedupAux]
  | cons r rs ih =>
    obtain ⟨hp, hm⟩ := h
    rcases hm r (List.mem_cons_self r rs) with hre | hrs
    · simp only [dedupAux]
      rw [if_neg (fun hc => hc.1 hre), if_pos hre]
      rw [ih seen ⟨hp.of_cons, fun t ht => hm t (List.mem_cons_of_mem _ ht)⟩]
    · by_cases hre : r.url = ""
      · simp only [dedupAux]
        rw [if_neg (fun hc => hc.1 hre), if_pos hre]
        rw [ih seen ⟨hp.of_cons, fun t ht => hm t (List.mem_cons_of_mem _ ht)⟩]
      · simp only [dedupAux]
        rw [if_pos ⟨hre, hrs⟩]
        refine congrArg (r :: ·) (ih (r.url :: seen) ⟨hp.of_cons, ?_⟩)
        intro t ht
        by_cases hte : t.url = ""
        · exact Or.inl hte
        · refine Or.inr ?_
          intro hmem
          rcases List.mem_cons.mp hmem with heq | hmem2
          · rcases List.pairwise_cons.mp hp |>.1 t ht with h | h | h
            · exact hre h
            · exact hte h
            · exact h heq.symm
          · rcases hm t (List.mem_cons_of_mem _ ht) with h | h
            · exact hte h
            · exact h hmem2

/-- C8: `_deduplicate_results` preserves relative order (its output is a
sublist of its input), keeps each non-empty URL at most once (exactly the
first occurrence survives), retains every result with an empty URL, and is
idempotent. -/
theorem C8_deduplicate_results (l : List SearchResult) :
    (deduplicate_results l).Sublist l ∧
    (∀ u : String, u ≠ "" →
      (deduplicate_results l).filter (fun r => r.url == u) =
        (l.filter (fun r => r.url == u)).take 1 ∧
      ((deduplicate_results l).filter (fun r => r.url == u)).length ≤ 1) ∧
    (deduplicate_results l).filter (fun r => r.url == "") =
      l.filter (fun r => r.url == "") ∧
    deduplicate_results (deduplicate_results l) = deduplicate_results l := by
  simp only [deduplicate_results]
  refine ⟨dedupAux_sublist [] l, ?_, dedupAux_filter_empty [] l, ?_⟩
  · intro u hu
    have h := dedupAux_filter [] l u hu
    rw [if_neg (List.not_mem_nil u)] at h
    exact ⟨h, by rw [h]; exact le_trans (List.length_take_le 1 _) (le_refl 1)⟩
  · exact dedupAux_of_urlsOk [] _ (dedupAux_urlsOk [] l)

/-- C7: `_step_prepare_dataframe` builds one row per scraped record with the
fixed defaults (`'Unknown'` for a missing name, etc.), derives `all_skills`
from the `skills` cell (the cell itself when it is a list, else the empty
list), and replaces an empty record list by the single `'Web Answer'` row
carrying the last search answer when that answer is non-empty. -/
theorem C7_prepare_dataframe (scraped : List RawRecord) (ans : String) :
    ((prepare_dataframe scraped ans).rows =
      if scraped = [] ∧ ans ≠ "" then [webAnswerRow ans]
      else scraped.map convertRecord) ∧
    ((prepare_dataframe scraped ans).all_skills =
      if scraped = [] then none
      else some (scraped.map (fun r => to_list_safe (convertRecord r).skills))) ∧
    (∀ r : RawRecord,
      (convertRecord r).name = r.name.getD "Unknown" ∧
      (convertRecord r).profile_url = r.profile_url.getD "" ∧
      (convertRecord r).source = r.source.getD "Unknown" ∧
      to_list_safe (convertRecord r).skills =
        (match r.skills with
          | some (.list l) => l
          | _ => ([] : List String))) ∧
    (webAnswerRow ans).name = "Web Answer" ∧ (webAnswerRow ans).summary = ans := by
  refine ⟨?_, ?_, ?_, rfl, rfl⟩
  · by_cases h1 : scraped = []
    · subst h1
      by_cases h2 : ans = "" <;> simp [prepare_dataframe, h2]
    · have hm : ¬ scraped.map convertRecord = [] := by
        simpa [List.map_eq_nil_iff] using h1
      simp [prepare_dataframe, h1, hm]
  · by_cases h1 : scraped = []
    · subst h1
      by_cases h2 : ans = "" <;> simp [prepare_dataframe, h2]
    · have hm : ¬ scraped.map convertRecord = [] := by
        simpa [List.map_eq_nil_iff] using h1
      simp [prepare_dataframe, h1, hm]
  · intro r
    refine ⟨rfl, rfl, rfl, ?_⟩
    cases hsk : r.skills with
    | none => simp [convertRecord, hsk, to_list_safe]
    | some c => cases c <;> simp [convertRecord, hsk, to_list_safe]

/-- C10: `POST /api/run` rejects blank input with HTTP 400 creating no job,
and otherwise creates exactly one job storing the stripped input and a
`max_results` of at least 1 (`max(req.max_results, 1)`). -/
theorem C10_api_run (req : RunRequest) (job_id now : String)
    (jobs : List (String × JobState)) :
    (pyStrip req.input = "" → api_run req job_id now jobs = .error 400) ∧
    (pyStrip req.input ≠ "" →
      ∃ job : JobState,
        api_run req job_id now jobs = .ok (jobs ++ [(job_id, job)], job_id) ∧
        job.input = pyStrip req.input ∧
        job.max_results = max req.max_results 1 ∧
        1 ≤ job.max_results) := by
  constructor
  · intro h
    simp [api_run, h]
  · intro h
    have hne : ¬ req.input = "" := by
      intro hc
      exact h (by rw [hc]; rfl)
    refine ⟨{ id := job_id
              status := "queued"
              created_at := now
              updated_at := now
              input := pyStrip req.input
              max_results := max req.max_results 1
              verbose := req.verbose
              progress := 0
              logs := ["Job queued", "Input: " ++ pyStrip req.input] },
      ?_, rfl, rfl, le_max_right _ _⟩
    simp [api_run, hne, h]

/-- Witness for C10: a whitespace-only input is rejected with 400, and a real
input creates one job with `max_results` clamped up from 0 to 1. -/
theorem C10_api_run_witness :
    api_run ⟨"   ", 0, true⟩ "j1" "t0" [] = .error 400 ∧
    ∃ job : JobState,
      api_run ⟨"hi there", 0, true⟩ "j2" "t0" [] = .ok ([("j2", job)], "j2") ∧
      job.input = pyStrip "hi there" ∧
      job.max_results = max 0 1 ∧
      1 ≤ job.max_results :=
  ⟨(C10_api_run ⟨"   ", 0, true⟩ "j1" "t0" []).1 (by decide),
   by
    have h := (C10_api_run ⟨"hi there", 0, true⟩ "j2" "t0" []).2 (by decide)
    simpa using h⟩

/-- C6: `generate_report` forces `generated_charts` to `[]` before rendering
(whatever `include_charts` says), the template data always carries the empty
charts collection, and the rendered report string does not depend on charts
at all (the template never references them), so no chart image data can
appear in it. -/
theorem C6_generate_report_text_only (st : RGState) (pdf : PreparedDF)
    (fmt : ReportFormat) (ctx : ReportContext) (ai : AIAnalysis) (ts : String) :
    (generate_report st pdf fmt ctx ai ts).1.generated_charts = [] ∧
    (generate_report st pdf fmt ctx ai ts).2 =
      create_report pdf.rows ai
        (generate_summary_statistics (statDFofRows pdf)) fmt [] ctx ts ∧
    (∀ (d : ReportData) (c : List Chart),
      buildReport { d with charts := c } = buildReport d) :=
  ⟨rfl, rfl, fun _ _ => rfl⟩

theorem processLine_sources (st : PState) (ln : String) :
    (processLine st ln).sources = st.sources ∨
      ((processLine st ln).sources = st.sources ++ [stripBullet ln] ∧
        bulletish ln = true ∧ st.cur = Sect.sources) := by
  simp only [processLine]
  split_ifs with h1 h2 h3 h4 h5 h6
  · exact Or.inl rfl
  · exact Or.inl rfl
  · exact Or.inl rfl
  · exact Or.inl rfl
  · exact Or.inr ⟨rfl, h5.2, h6⟩
  · exact Or.inl rfl
  · exact Or.inl rfl

theorem processLine_linkedin (st : PState) (ln : String) :
    (processLine st ln).linkedin_profiles = st.linkedin_profiles ∨
      ((processLine st ln).linkedin_profiles =
          st.linkedin_profiles ++ [stripBullet ln] ∧
        bulletish ln = true ∧ st.cur = Sect.linkedin) := by
  simp only [processLine]
  split_ifs with h1 h2 h3 h4 h5 h6
  · exact Or.inl rfl
  · exact Or.inl rfl
  · exact Or.inl rfl
  · exact Or.inl rfl
  · exact Or.inl rfl
  · rcases h5.1 with hc | hc
    · exact absurd hc h6
    · exact Or.inr ⟨rfl, h5.2, hc⟩
  · exact Or.inl rfl

theorem processLine_cur_sources (st : PState) (ln : String)
    (h : (processLine st ln).cur = Sect.sources) :
    st.cur = Sect.sources ∨ pyStarts (pyLower ln) "sources:" = true := by
  simp only [processLine] at h
  split_ifs at h with h1 h2 h3 h4 h5 h6
  all_goals
    first
      | exact Or.inl h
      | exact Or.inr h2

theorem processLine_cur_linkedin (st : PState) (ln : String)
    (h : (processLine st ln).cur = Sect.linkedin) :
    st.cur = Sect.linkedin ∨
      pyStarts (pyLower ln) "linkedin profiles" = true := by
  simp only [processLine] at h
  split_ifs at h with h1 h2 h3 h4 h5 h6
  all_goals
    first
      | exact Or.inl h
      | exact Or.inr h3

theorem foldl_sources_inv (ls : List String) (s : PState) :
    ∀ u ∈ (ls.foldl processLine s).sources,
      u ∈ s.sources ∨
        ∃ ln ∈ ls, bulletish ln = true ∧ u = stripBullet ln ∧
          (s.cur = Sect.sources ∨
            ∃ hl ∈ ls, pyStarts (pyLower hl) "sources:" = true) := by
  induction ls generalizing s with
  | nil => exact fun u hu => Or.inl hu
  | cons ln ls ih =>
    intro u hu
    rcases ih (processLine s ln) u hu with hmem | ⟨ln2, hln2, hb, he, hcur⟩
    · rcases processLine_sources s ln with heq | ⟨heq, hb, hc⟩
      · rw [heq] at hmem
        exact Or.inl hmem
      · rw [heq] at hmem
        rcases List.mem_append.mp hmem with hm | hm
        · exact Or.inl hm
        · have hu2 : u = stripBullet ln := by simpa using hm
          exact Or.inr ⟨ln, List.mem_cons_self _ _, hb, hu2, Or.inl hc⟩
    · refine Or.inr ⟨ln2, List.mem_cons_of_mem _ hln2, hb, he, ?_⟩
      rcases hcur with hc | ⟨h2, hh2, hs2⟩
      · rcases processLine_cur_sources s ln hc with hcc | hcc
        · exact Or.inl hcc
        · exact Or.inr ⟨ln, List.mem_cons_self _ _, hcc⟩
      · exact Or.inr ⟨h2, List.mem_cons_of_mem _ hh2, hs2⟩

theorem foldl_linkedin_inv (ls : List String) (s : PState) :
    ∀ u ∈ (ls.foldl processLine s).linkedin_profiles,
      u ∈ s.linkedin_profiles ∨
        ∃ ln ∈ ls, bulletish ln = true ∧ u = stripBullet ln ∧
          (s.cur = Sect.linkedin ∨
            ∃ hl ∈ ls, pyStarts (pyLower hl) "linkedin profiles" = true) := by
  induction ls generalizing s with
  | nil => exact fun u hu => Or.inl hu
  | cons ln ls ih =>
    intro u hu
    rcases ih (processLine s ln) u hu with hmem | ⟨ln2, hln2, hb, he, hcur⟩
    · rcases processLine_linkedin s ln with heq | ⟨heq, hb, hc⟩
      · rw [heq] at hmem
        exact Or.inl hmem
      · rw [heq] at hmem
        rcases List.mem_append.mp hmem with hm | hm
        · exact Or.inl hm
        · have hu2 : u = stripBullet ln := by simpa using hm
          exact Or.inr ⟨ln, List.mem_cons_self _ _, hb, hu2, Or.inl hc⟩
    · refine Or.inr ⟨ln2, List.mem_cons_of_mem _ hln2, hb, he, ?_⟩
      rcases hcur with hc | ⟨h2, hh2, hs2⟩
      · rcases processLine_cur_linkedin s ln hc with hcc | hcc
        · exact Or.inl hcc
        · exact Or.inr ⟨ln, List.mem_cons_self _ _, hcc⟩
      · exact Or.inr ⟨h2, List.mem_cons_of_mem _ hh2, hs2⟩

theorem subAt_takeWhile (pre l : List Char) (p : Char → Bool)
    (h : subAt pre l = true) (hp : ∀ c ∈ pre, p c = true) :
    subAt pre (l.takeWhile p) = true := by
  induction pre generalizing l with
  | nil => rfl
  | cons a pre ih =>
    cases l with
    | nil => simp [subAt] at h
    | cons b l2 =>
      simp only [subAt, Bool.and_eq_true, beq_iff_eq] at h
      obtain ⟨hab, hrest⟩ := h
      have hpb : p b = true := hab ▸ hp a (List.mem_cons_self _ _)
      rw [List.takeWhile_cons_of_pos hpb]
      simp only [subAt, Bool.and_eq_true, beq_iff_eq]
      exact ⟨hab, ih l2 hrest (fun c hc => hp c (List.mem_cons_of_mem _ hc))⟩

theorem pyStarts_firstWord (s : String) (h : pyStarts s "http" = true) :
    pyStarts (firstWord s) "http" = true := by
  have hc : ∀ c ∈ "http".toList, (c != ' ') = true := by decide
  exact subAt_takeWhile "http".toList s.toList (fun c => c != ' ') h hc

theorem space_not_mem_firstWord (s : String) : ' ' ∉ (firstWord s).toList := by
  intro hmem
  have hp := List.mem_takeWhile_imp
    (l := s.toList) (p := fun c => c != ' ') hmem
  simp at hp

theorem mem_cleanUrls (us : List String) (u : String)
    (hu : u ∈ cleanUrls us) :
    ∃ raw ∈ us, pyStarts raw "http" = true ∧ u = firstWord raw := by
  simp only [cleanUrls, List.mem_map, List.mem_filter] at hu
  obtain ⟨raw, ⟨hmem, hstart⟩, heq⟩ := hu
  exact ⟨raw, hmem, hstart, heq.symm⟩

/-- C5: every extracted source/profile url starts with `'http'`, is a bullet
line's payload truncated at its first space, sits under the corresponding
section header, and `_extract_results_json` returns the `results` list of
the first RESULTS_JSON block (or the first `{"results": [...]}` block) when
it parses as a dict with a list under `'results'`, and the empty list
otherwise. -/
theorem C5_response_parsing (content : String) :
    (∀ u ∈ (parse_structured_search_response content).sources,
      pyStarts u "http" = true ∧ ' ' ∉ u.toList ∧
      ∃ ln ∈ responseLines content,
        bulletish ln = true ∧ u = firstWord (stripBullet ln) ∧
        pyStarts (stripBullet ln) "http" = true ∧
        ∃ hl ∈ responseLines content,
          pyStarts (pyLower hl) "sources:" = true) ∧
    (∀ u ∈ (parse_structured_search_response content).linkedin_profiles,
      pyStarts u "http" = true ∧ ' ' ∉ u.toList ∧
      ∃ ln ∈ responseLines content,
        bulletish ln = true ∧ u = firstWord (stripBullet ln) ∧
        pyStarts (stripBullet ln) "http" = true ∧
        ∃ hl ∈ responseLines content,
          pyStarts (pyLower hl) "linkedin profiles" = true) ∧
    (scanP1 content.toList = Option.none →
      scanP2 content.toList = Option.none →
      extract_results_json content = []) ∧
    (∀ block, scanP1 content.toList = some block →
      extract_results_json content = resultsOfBlock block) ∧
    (∀ block, scanP1 content.toList = Option.none →
      scanP2 content.toList = some block →
      extract_results_json content = resultsOfBlock block) := by
  refine ⟨?_, ?_, ?_, ?_, ?_⟩
  · intro u hu
    simp only [parse_structured_search_response] at hu
    obtain ⟨raw, hraw, hstart, hfw⟩ := mem_cleanUrls _ _ hu
    rcases foldl_sources_inv (responseLines content)
        ⟨Sect.none, [], "", [], []⟩ raw hraw with hmem | ⟨ln, hln, hb, he, hcur⟩
    · exact absurd hmem (List.not_mem_nil raw)
    · subst he
      subst hfw
      refine ⟨pyStarts_firstWord _ hstart, space_not_mem_firstWord _,
        ln, hln, hb, rfl, hstart, ?_⟩
      rcases hcur with hc | hh
      · exact absurd hc (by decide)
      · exact hh
  · intro u hu
    simp only [parse_structured_search_response] at hu
    obtain ⟨raw, hraw, hstart, hfw⟩ := mem_cleanUrls _ _ hu
    rcases foldl_linkedin_inv (responseLines content)
        ⟨Sect.none, [], "", [], []⟩ raw hraw with hmem | ⟨ln, hln, hb, he, hcur⟩
    · exact absurd hmem (List.not_mem_nil raw)
    · subst he
      subst hfw
      refine ⟨pyStarts_firstWord _ hstart, space_not_mem_firstWord _,
        ln, hln, hb, rfl, hstart, ?_⟩
      rcases hcur with hc | hh
      · exact absurd hc (by decide)
      · exact hh
  · intro h1 h2
    simp only [extract_results_json, h1, h2]
  · intro block h1
    simp only [extract_results_json, h1]
  · intro block h1 h2
    simp only [extract_results_json, h1, h2]

/-- Witness for C5 on a concrete response: a Sources bullet with a trailing
word is truncated and kept, a LinkedIn Profiles bullet is kept, and with no
JSON block present the extraction returns the empty list. -/
theorem C5_response_parsing_witness :
    pyStarts "http://a" "http" = true ∧
    pyStarts "http://li/p" "http" = true ∧
    extract_results_json
      "Answer: hi\nSources:\n- http://a b\nLinkedIn Profiles:\n• http://li/p" =
      [] :=
  ⟨((C5_response_parsing
      "Answer: hi\nSources:\n- http://a b\nLinkedIn Profiles:\n• http://li/p").1
      "http://a" (by decide)).1,
   ((C5_response_parsing
      "Answer: hi\nSources:\n- http://a b\nLinkedIn Profiles:\n• http://li/p").2.1
      "http://li/p" (by decide)).1,
   (C5_response_parsing
      "Answer: hi\nSources:\n- http://a b\nLinkedIn Profiles:\n• http://li/p").2.2.1
      (by decide) (by decide)⟩

theorem taskWeight_pos (t : TaskType) : 0 < taskWeight t := by
  cases t <;> norm_num [taskWeight]

theorem contribution_bounds (t : TaskProgress)
    (h0 : 0 ≤ t.progress_percentage) (h1 : t.progress_percentage ≤ 100) :
    0 ≤ contribution t ∧ contribution t ≤ taskWeight t.task_type * 100 := by
  have hw := (taskWeight_pos t.task_type).le
  cases hs : t.status <;> simp only [contribution, hs]
  · exact ⟨le_refl 0, mul_nonneg hw (by norm_num)⟩
  · exact ⟨mul_nonneg hw h0, mul_le_mul_of_nonneg_left h1 hw⟩
  · exact ⟨mul_nonneg hw (by norm_num), le_refl _⟩
  · exact ⟨mul_nonneg hw (le_min h0 (by norm_num)),
      mul_le_mul_of_nonneg_left
        (le_trans (min_le_right _ _) (by norm_num)) hw⟩
  · exact ⟨le_refl 0, mul_nonneg hw (by norm_num)⟩

theorem weightSum_nonneg (l : List (String × TaskProgress)) :
    0 ≤ weightSum l := by
  induction l with
  | nil => simp [weightSum]
  | cons p rest ih =>
    simp only [weightSum, List.map_cons, List.sum_cons]
    have hw := (taskWeight_pos p.2.task_type).le
    simp only [weightSum] at ih
    linarith

theorem weightSum_pos (l : List (String × TaskProgress)) (h : l ≠ []) :
    0 < weightSum l := by
  cases l with
  | nil => cases h rfl
  | cons p rest =>
    simp only [weightSum, List.map_cons, List.sum_cons]
    have h1 := taskWeight_pos p.2.task_type
    have h2 := weightSum_nonneg rest
    simp only [weightSum] at h2
    linarith

theorem contribSum_bounds (l : List (String × TaskProgress))
    (h : BoundedTasks l) :
    0 ≤ contribSum l ∧ contribSum l ≤ 100 * weightSum l := by
  induction l with
  | nil => simp [contribSum, weightSum]
  | cons p rest ih =>
    have hp := h p (List.mem_cons_self p rest)
    have hc := contribution_bounds p.2 hp.1 hp.2
    have ih2 := ih (fun q hq => h q (List.mem_cons_of_mem _ hq))
    simp only [contribSum, weightSum, List.map_cons, List.sum_cons] at *
    constructor
    · linarith [hc.1, ih2.1]
    · nlinarith [hc.2, ih2.2]

theorem update_overall_bounds (l : List (String × TaskProgress))
    (h : BoundedTasks l) :
    0 ≤ update_overall_progress l ∧ update_overall_progress l ≤ 100 := by
  by_cases hl : l = []
  · simp [update_overall_progress, hl]
  · have hW := weightSum_pos l hl
    have hS := contribSum_bounds l h
    simp only [update_overall_progress, if_neg hl, if_pos hW]
    refine ⟨div_nonneg hS.1 hW.le, ?_⟩
    rw [div_le_iff₀ hW]
    linarith [hS.2]

theorem setTask_ne_nil (l : List (String × TaskProgress)) (id : String)
    (t : TaskProgress) : setTask l id t ≠ [] := by
  cases l with
  | nil => simp [setTask]
  | cons p rest =>
    obtain ⟨k, v⟩ := p
    simp only [setTask]
    split_ifs <;> simp

theorem mem_setTask (l : List (String × TaskProgress)) (id : String)
    (t : TaskProgress) (x : String × TaskProgress)
    (hx : x ∈ setTask l id t) : x = (id, t) ∨ x ∈ l := by
  induction l with
  | nil => simpa [setTask] using hx
  | cons p rest ih =>
    obtain ⟨k, v⟩ := p
    simp only [setTask] at hx
    split_ifs at hx with hk
    · rcases List.mem_cons.mp hx with rfl | hmem
      · exact Or.inl (by rw [hk])
      · exact Or.inr (List.mem_cons_of_mem _ hmem)
    · rcases List.mem_cons.mp hx with rfl | hmem
      · exact Or.inr (List.mem_cons_self _ _)
      · rcases ih hmem with h | h
        · exact Or.inl h
        · exact Or.inr (List.mem_cons_of_mem _ h)

theorem lookupTask_mem (l : List (String × TaskProgress)) (id : String)
    (t : TaskProgress) (h : lookupTask l id = some t) : (id, t) ∈ l := by
  induction l with
  | nil => simp [lookupTask] at h
  | cons p rest ih =>
    obtain ⟨k, v⟩ := p
    simp only [lookupTask] at h
    split_ifs at h with hk
    · injection h with h2
      subst h2
      subst hk
      exact List.mem_cons_self _ _
    · exact List.mem_cons_of_mem _ (ih h)

theorem applyUpdate_clamps (t : TaskProgress) (st : TaskStatus) (q : ℚ)
    (e : Option String) :
    (applyUpdate t st (some q) e).progress_percentage = min (max q 0) 100 := by
  cases e with
  | none => rfl
  | some m =>
    simp only [applyUpdate]
    split_ifs <;> rfl

theorem applyUpdate_bounds (t : TaskProgress) (st : TaskStatus)
    (p : Option ℚ) (e : Option String) (h0 : 0 ≤ t.progress_percentage)
    (h1 : t.progress_percentage ≤ 100) :
    0 ≤ (applyUpdate t st p e).progress_percentage ∧
      (applyUpdate t st p e).progress_percentage ≤ 100 := by
  cases p with
  | none =>
    have hp : (applyUpdate t st none e).progress_percentage =
        t.progress_percentage := by
      cases e with
      | none => rfl
      | some m =>
        simp only [applyUpdate]
        split_ifs <;> rfl
    rw [hp]
    exact ⟨h0, h1⟩
  | some q =>
    rw [applyUpdate_clamps]
    exact ⟨le_min (le_max_right q 0) (by norm_num), min_le_right _ _⟩

theorem update_task_status_inv (s : UpdaterState) (id : String)
    (st : TaskStatus) (p : Option ℚ) (e : Option String)
    (h : UpdaterInv s) : UpdaterInv (update_task_status s id st p e) := by
  obtain ⟨hb, h0, h1, hemp⟩ := h
  simp only [update_task_status]
  cases hl : lookupTask s.tasks id with
  | none => exact ⟨hb, h0, h1, hemp⟩
  | some t =>
    have htmem := lookupTask_mem _ _ _ hl
    have htb := hb (id, t) htmem
    have hup := applyUpdate_bounds t st p e htb.1 htb.2
    have hb2 : BoundedTasks (setTask s.tasks id (applyUpdate t st p e)) := by
      intro x hx
      rcases mem_setTask _ _ _ _ hx with rfl | hx2
      · exact hup
      · exact hb x hx2
    have hov := update_overall_bounds _ hb2
    exact ⟨hb2, hov.1, hov.2, fun hc => absurd hc (setTask_ne_nil _ _ _)⟩

theorem applyOp_inv (s : UpdaterState) (op : TaskOp) (h : UpdaterInv s) :
    UpdaterInv (applyOp s op) := by
  cases op with
  | create id t =>
    obtain ⟨hb, h0, h1, _⟩ := h
    refine ⟨?_, h0, h1, fun hc => absurd hc (setTask_ne_nil _ _ _)⟩
    intro x hx
    rcases mem_setTask _ _ _ _ hx with rfl | hx2
    · exact ⟨le_refl 0, by norm_num⟩
    · exact hb x hx2
  | update id st p e => exact update_task_status_inv s id st p e h
  | logErr id m => exact update_task_status_inv s id .failed none (some m) h
  | reset =>
    exact ⟨fun x hx => absurd hx (List.not_mem_nil x), le_refl 0,
      show (0 : ℚ) ≤ 100 by norm_num, fun _ => rfl⟩

theorem runOps_inv (ops : List TaskOp) : UpdaterInv (runOps ops) := by
  have hgen : ∀ (s : UpdaterState), UpdaterInv s →
      UpdaterInv (ops.foldl applyOp s) := by
    induction ops with
    | nil => exact fun s hs => hs
    | cons op rest ih => exact fun s hs => ih _ (applyOp_inv s op hs)
  exact hgen initialUpdaterState
    ⟨fun x hx => absurd hx (List.not_mem_nil x), le_refl 0,
      show (0 : ℚ) ≤ 100 by norm_num, fun _ => rfl⟩

/-- C9 counterexample: after `create_task("a", LINKEDIN_SCRAPING)`,
`update_task_status("a", COMPLETED, 100)`, `create_task("b", DATA_CLEANING)`,
tasks exist but `overall_progress` is the stale value 100 from the last
recomputation, while the weighted average over the current tasks is
`600/7 ≈ 85.7` — `create_task` does not recompute the overall progress, so
the claim's "otherwise a weighted average of per-task contributions" fails at
this reachable state. -/
theorem C9_task_updater_counterexample :
    (runOps [TaskOp.create "a" TaskType.linkedin_scraping,
      TaskOp.update "a" TaskStatus.completed (some 100) none,
      TaskOp.create "b" TaskType.data_cleaning]).tasks ≠ [] ∧
    (runOps [TaskOp.create "a" TaskType.linkedin_scraping,
      TaskOp.update "a" TaskStatus.completed (some 100) none,
      TaskOp.create "b" TaskType.data_cleaning]).overall_progress = 100 ∧
    update_overall_progress
      ((runOps [TaskOp.create "a" TaskType.linkedin_scraping,
        TaskOp.update "a" TaskStatus.completed (some 100) none,
        TaskOp.create "b" TaskType.data_cleaning]).tasks) = 600 / 7 ∧
    (runOps [TaskOp.create "a" TaskType.linkedin_scraping,
      TaskOp.update "a" TaskStatus.completed (some 100) none,
      TaskOp.create "b" TaskType.data_cleaning]).overall_progress ≠
      update_overall_progress
        ((runOps [TaskOp.create "a" TaskType.linkedin_scraping,
          TaskOp.update "a" TaskStatus.completed (some 100) none,
          TaskOp.create "b" TaskType.data_cleaning]).tasks) := by
  have hab : ("a" : String) ≠ "b" := by decide
  have hcons : ∀ (x : String × TaskProgress)
      (l : List (String × TaskProgress)), x :: l ≠ [] :=
    fun x l => List.cons_ne_nil x l
  refine ⟨?_, ?_, ?_, ?_⟩ <;>
    norm_num [runOps, List.foldl, applyOp, initialUpdaterState,
      update_task_status, lookupTask, setTask, applyUpdate,
      update_overall_progress, weightSum, contribSum, contribution,
      taskWeight, hab, hcons]

/-- C9 amended: after any operation sequence every tracked task's
`progress_percentage` lies in [0, 100] (`update_task_status` stores exactly
the clamp `min(max(p, 0), 100)` of a supplied value), `overall_progress`
lies in [0, 100] and is 0 when no tasks exist; it equals the weighted
average of per-task contributions immediately after every
`update_task_status`/`log_error` that finds its task (`create_task` leaves
the previously computed value in place). -/
theorem C9_task_updater (ops : List TaskOp) :
    (∀ p ∈ (runOps ops).tasks,
      0 ≤ p.2.progress_percentage ∧ p.2.progress_percentage ≤ 100) ∧
    (∀ (t : TaskProgress) (st : TaskStatus) (q : ℚ) (e : Option String),
      (applyUpdate t st (some q) e).progress_percentage =
        min (max q 0) 100) ∧
    0 ≤ (runOps ops).overall_progress ∧
    (runOps ops).overall_progress ≤ 100 ∧
    ((runOps ops).tasks = [] → (runOps ops).overall_progress = 0) ∧
    (∀ (id : String) (st : TaskStatus) (p : Option ℚ) (e : Option String),
      update_task_status (runOps ops) id st p e = runOps ops ∨
      (update_task_status (runOps ops) id st p e).overall_progress =
        update_overall_progress
          ((update_task_status (runOps ops) id st p e).tasks)) := by
  obtain ⟨hb, h0, h1, hemp⟩ := runOps_inv ops
  refine ⟨hb, fun t st q e => applyUpdate_clamps t st q e, h0, h1, hemp, ?_⟩
  intro id st p e
  simp only [update_task_status]
  cases hl : lookupTask (runOps ops).tasks id with
  | none => exact Or.inl rfl
  | some t => exact Or.inr rfl

/-- Witness for C9: after a reset there are no tasks and the overall
progress is 0. -/
theorem C9_task_updater_witness :
    (runOps [TaskOp.reset]).tasks = [] ∧
    (runOps [TaskOp.reset]).overall_progress = 0 :=
  ⟨rfl, (C9_task_updater [TaskOp.reset]).2.2.2.2.1 rfl⟩

/-- C1 counterexample: in the code's call order `_generate_ai_analysis` runs
strictly before `_generate_summary_statistics` (`report_generator.py` lines
39-40), contradicting the claimed order in which the statistics summarizer
precedes the AI analysis writer; moreover a file-persistence write (the raw
JSON dump at `main.py:213`) happens before the data assembler runs. -/
theorem C1_pipeline_order_counterexample :
    ¬ (executeWorkflowTrace.indexOf Component.statisticsSummarizer <
        executeWorkflowTrace.indexOf Component.aiAnalysisWriter) ∧
    executeWorkflowTrace.indexOf Component.aiAnalysisWriter <
      executeWorkflowTrace.indexOf Component.statisticsSummarizer ∧
    generateReportTrace =
      [Component.aiAnalysisWriter, Component.statisticsSummarizer,
        Component.templateRenderer] := by
  decide

/-- C1 amended: the straight-line run executes the components in the spec's
listed order except that the AI analysis writer runs before the statistics
summarizer, with additional file-persistence writes interleaved after task
execution and after data assembly. -/
theorem C1_pipeline_order :
    [Component.intentClassifier, Component.queryGenerator,
      Component.webSearchExecutor, Component.linkedinScraper,
      Component.dataAssembler, Component.aiAnalysisWriter,
      Component.statisticsSummarizer, Component.templateRenderer,
      Component.filePersistence].Sublist executeWorkflowTrace ∧
    executeWorkflowTrace.indexOf Component.aiAnalysisWriter <
      executeWorkflowTrace.indexOf Component.statisticsSummarizer ∧
    executeWorkflowTrace =
      [Component.intentClassifier, Component.queryGenerator,
        Component.webSearchExecutor, Component.linkedinScraper,
        Component.filePersistence, Component.dataAssembler,
        Component.filePersistence, Component.aiAnalysisWriter,
        Component.statisticsSummarizer, Component.templateRenderer,
        Component.filePersistence] := by
  decide

/-- Witness for C8 at a concrete list: a duplicated non-empty URL and an
empty URL. -/
theorem C8_deduplicate_results_witness :
    (deduplicate_results
        [⟨"a", "http://x", "", "web", 0⟩, ⟨"b", "http://x", "", "web", 0⟩,
          ⟨"c", "", "", "search", 0⟩]).filter (fun r => r.url == "http://x") =
      ([(⟨"a", "http://x", "", "web", 0⟩ : SearchResult),
          ⟨"b", "http://x", "", "web", 0⟩,
          ⟨"c", "", "", "search", 0⟩].filter (fun r => r.url == "http://x")).take 1 :=
  ((C8_deduplicate_results _).2.1 "http://x" (by decide)).1

end ManusClone
